import Mathlib

/-!
Shallow embedding of the PUMA 560 simulator core
(`src/pid_controller.py`, `src/dynamics.py`).

Numeric values are modelled exactly: caller-supplied scalar parameters
(durations, step sizes, gains, setpoints) are rationals, while simulation
state that passes through the angle conversions (which involve the real
constant pi) lives in the reals.  The Rigid-Body Model
(`roboticstoolbox.models.DH.Puma560`) is an external collaborator and is
embedded as a structure of abstract functions over joint vectors.
-/

open Matrix

/-- A joint vector: one real value per joint, indices 0..5. -/
abbrev Vec6 := Fin 6 → ℝ

/-- Embeds `np.deg2rad`, the `* (np.pi / 180.0)` conversion in `dynamics.py`. -/
noncomputable def degToRad (x : ℝ) : ℝ := x * (Real.pi / 180)

/-- Embeds `np.rad2deg`, the `* (180.0 / np.pi)` conversion in `dynamics.py`. -/
noncomputable def radToDeg (x : ℝ) : ℝ := x * (180 / Real.pi)

/-- External Rigid-Body Model collaborator (`roboticstoolbox` Puma560):
forward acceleration, inertia matrix, Coriolis matrix, gravity load and
recursive Newton-Euler inverse dynamics. -/
structure RigidBodyModel where
  accel : Vec6 → Vec6 → Vec6 → Vec6
  inertia : Vec6 → Matrix (Fin 6) (Fin 6) ℝ
  coriolis : Vec6 → Vec6 → Matrix (Fin 6) (Fin 6) ℝ
  gravload : Vec6 → Vec6
  rne : List Vec6 → List Vec6 → List Vec6 → List Vec6

/-! ## `pid_controller.py`: the `PIDController` class -/

/-- The `PIDValue` dataclass of `pid_controller.py`. -/
structure PIDValue where
  Kp : ℝ
  Ki : ℝ
  Kd : ℝ

/-- The `PIDController` class: fixed gains and setpoint plus the mutable
`integral` / `prev_error` state, over an arbitrary linear ordered field
(instantiated at `ℚ` for exact single-controller claims and at `ℝ` inside
the closed-loop simulator). -/
structure PIDController (α : Type) where
  Kp : α
  Ki : α
  Kd : α
  setpoint : α
  integral : α
  prev_error : α

/-- Embeds `PIDController.__init__`: gains and setpoint from the caller,
`integral = 0.0`, `prev_error = 0.0`. -/
def PIDController.make {α : Type} [LinearOrderedField α]
    (Kp Ki Kd setpoint : α) : PIDController α :=
  ⟨Kp, Ki, Kd, setpoint, 0, 0⟩

/-- Embeds `PIDController.update(measurement, dt)`: returns the control output and
the controller with its mutated state. -/
def PIDController.update {α : Type} [LinearOrderedField α]
    (c : PIDController α) (measurement dt : α) : α × PIDController α :=
  let error := c.setpoint - measurement
  let integral1 := c.integral + error * dt
  let integral2 := max (min integral1 1000000) (-1000000)
  let derivative := max (min ((error - c.prev_error) / dt) 1000000) (-1000000)
  (c.Kp * error + c.Ki * integral2 + c.Kd * derivative,
   { c with integral := integral2, prev_error := error })

/-- Spec-side clamp to `[-1e6, 1e6]`, written independently of the code's
`max (min x 1e6) (-1e6)` form. -/
def specClamp {α : Type} [LinearOrderedField α] (x : α) : α :=
  if x < -1000000 then -1000000 else if 1000000 < x then 1000000 else x

/-- A finite sequence of `update` calls, each a `(measurement, dt)` pair,
applied in order to one controller. -/
def PIDController.runUpdates {α : Type} [LinearOrderedField α]
    (c : PIDController α) (calls : List (α × α)) : PIDController α :=
  calls.foldl (fun st call => (st.update call.1 call.2).2) c

lemma specClamp_eq {α : Type} [LinearOrderedField α] (x : α) :
    specClamp x = max (min x 1000000) (-1000000) := by
  unfold specClamp
  rcases lt_or_le x (-1000000) with h | h
  · have hx : x < 1000000 := lt_trans h (by norm_num)
    rw [if_pos h, min_eq_left hx.le, max_eq_right h.le]
  · rw [if_neg (not_lt.mpr h)]
    rcases lt_or_le (1000000 : α) x with h2 | h2
    · rw [if_pos h2, min_eq_right h2.le, max_eq_left (by norm_num)]
    · rw [if_neg (not_lt.mpr h2), min_eq_left h2, max_eq_left h]

lemma abs_clamp_le {α : Type} [LinearOrderedField α] (x : α) :
    |max (min x 1000000) (-1000000)| ≤ 1000000 := by
  rw [abs_le]
  constructor
  · exact le_max_right _ _
  · exact max_le (min_le_right _ _) (by norm_num)

lemma update_integral_bounded {α : Type} [LinearOrderedField α]
    (c : PIDController α) (m dt : α) :
    |((c.update m dt).2).integral| ≤ 1000000 := by
  simpa [PIDController.update] using
    abs_clamp_le (c.integral + (c.setpoint - m) * dt)

lemma runUpdates_integral_bounded {α : Type} [LinearOrderedField α]
    (calls : List (α × α)) (c : PIDController α) (hc : |c.integral| ≤ 1000000) :
    |(c.runUpdates calls).integral| ≤ 1000000 := by
  induction calls generalizing c with
  | nil => simpa [PIDController.runUpdates] using hc
  | cons x xs ih =>
    simpa [PIDController.runUpdates, List.foldl_cons] using
      ih ((c.update x.1 x.2).2) (update_integral_bounded c x.1 x.2)

/-- C6: one `update` call computes the error, the clamped integral, the
clamped derivative, stores them, and returns `Kp*e + Ki*I + Kd*d`. -/
theorem pid_update_spec_formula (c : PIDController ℚ) (m dt : ℚ) (hdt : 0 < dt) :
    c.update m dt =
      (c.Kp * (c.setpoint - m)
        + c.Ki * specClamp (c.integral + (c.setpoint - m) * dt)
        + c.Kd * specClamp (((c.setpoint - m) - c.prev_error) / dt),
       { c with integral := specClamp (c.integral + (c.setpoint - m) * dt),
                prev_error := c.setpoint - m }) := by
  simp [PIDController.update, specClamp_eq]

theorem pid_update_spec_formula_witness :
    (0 : ℚ) < 1 ∧
      (PIDController.make (1 : ℚ) 1 1 0).update 2 1 =
        ((1 : ℚ) * (0 - 2) + 1 * specClamp (0 + (0 - 2) * 1)
            + 1 * specClamp ((0 - 2 - 0) / 1),
         { (PIDController.make (1 : ℚ) 1 1 0) with
             integral := specClamp (0 + (0 - 2) * 1), prev_error := 0 - 2 }) :=
  ⟨by norm_num,
   pid_update_spec_formula (PIDController.make (1 : ℚ) 1 1 0) 2 1 (by norm_num)⟩

/-- C7: starting from construction, the integral accumulator stays in
`[-1e6, 1e6]` after every finite sequence of `update` calls with positive
`dt`, whatever the magnitudes of the errors. -/
theorem pid_integral_always_clamped (Kp Ki Kd setpoint : ℚ)
    (calls : List (ℚ × ℚ)) (hdt : ∀ p ∈ calls, 0 < p.2) :
    |((PIDController.make Kp Ki Kd setpoint).runUpdates calls).integral|
      ≤ 1000000 := by
  exact runUpdates_integral_bounded calls _ (by simp [PIDController.make])

theorem pid_integral_always_clamped_witness :
    (∀ p ∈ [((2000000 : ℚ), (1 : ℚ)), (2000000, 1)], 0 < p.2) ∧
      |((PIDController.make (0 : ℚ) 1 0 0).runUpdates
          [(2000000, 1), (2000000, 1)]).integral| ≤ 1000000 :=
  ⟨by decide, pid_integral_always_clamped 0 1 0 0 _ (by decide)⟩

/-- C3 (code evaluated at the failing input): `update` contains no check on
`dt`; called with `dt = -1 ≤ 0` it returns a value (here `1`) instead of
raising `InvalidTimeStep`. -/
theorem pid_update_no_dt_check :
    ((PIDController.make (1 : ℚ) 1 1 0).update 1 (-1)).1 = 1 := by
  simp only [PIDController.update, PIDController.make]
  norm_num [min_def, max_def]

/-! ## `dynamics.py`: time grids -/

/-- Embeds `np.linspace(a, b, n)`: `n` evenly spaced samples from `a` to `b`
inclusive (a single sample is `a`; spacing is `(b - a)/(n - 1)`). -/
def linspace (a b : ℚ) (n : ℕ) : List ℚ :=
  if n ≤ 1 then List.replicate n a
  else (List.range n).map (fun i : ℕ => a + (b - a) * i / ((n : ℚ) - 1))

/-- Embeds `np.arange(start, stop, step)`: `⌈(stop - start)/step⌉` samples
`start + k*step`, never reaching `stop`. -/
def arange (start stop step : ℚ) : List ℚ :=
  (List.range (⌈(stop - start) / step⌉.toNat)).map
    (fun k : ℕ => start + step * k)

lemma linspace_length (a b : ℚ) (n : ℕ) : (linspace a b n).length = n := by
  unfold linspace
  split <;> simp

lemma linspace_get? (a b : ℚ) (n k : ℕ) (hn : 2 ≤ n) (hk : k < n) :
    (linspace a b n).get? k = some (a + (b - a) * k / ((n : ℚ) - 1)) := by
  unfold linspace
  rw [if_neg (by omega)]
  rw [List.get?_map, List.get?_range hk]
  rfl

lemma arange_length (start stop step : ℚ) :
    (arange start stop step).length = ⌈(stop - start) / step⌉.toNat := by
  simp [arange]

lemma arange_get? (start stop step : ℚ) (k : ℕ)
    (hk : k < ⌈(stop - start) / step⌉.toNat) :
    (arange start stop step).get? k = some (start + step * k) := by
  unfold arange
  rw [List.get?_map, List.get?_range hk]
  rfl

/-! ## `dynamics.py`: `run_forward_dynamics` -/

/-- Integration state of the forward-dynamics loop (radians). -/
structure FDState where
  q : Vec6
  qd : Vec6

/-- The degree inputs converted to radians before the loop
(`q = np.array(q_initial_deg) * (np.pi / 180.0)`, same for `qd`). -/
noncomputable def fdInit (q_initial_deg qd_initial_deg : Vec6) : FDState :=
  ⟨fun i => degToRad (q_initial_deg i), fun i => degToRad (qd_initial_deg i)⟩

/-- One Euler step of the loop body: `qd = qd + qdd*dt; q = q + qd*dt`
(the position update uses the already-updated velocity). -/
noncomputable def fdStep (robot : RigidBodyModel) (tau : Vec6) (dt : ℝ)
    (s : FDState) : FDState :=
  let qdd := robot.accel s.q s.qd tau
  let qd2 : Vec6 := fun i => s.qd i + qdd i * dt
  ⟨fun i => s.q i + qd2 i * dt, qd2⟩

/-- The state reached after `n` loop iterations. -/
noncomputable def fdIter (robot : RigidBodyModel) (tau : Vec6) (dt : ℝ)
    (s0 : FDState) (n : ℕ) : FDState :=
  (fdStep robot tau dt)^[n] s0

/-- The simulation loop: at each of the `n` iterations, compute `qdd`,
append `(q, qd, qdd)` to the histories, then advance the state. -/
noncomputable def fdLoop (robot : RigidBodyModel) (tau : Vec6) (dt : ℝ) :
    ℕ → FDState → List FDState × List Vec6
  | 0, _ => ([], [])
  | Nat.succ n, s =>
    let qdd := robot.accel s.q s.qd tau
    let rest := fdLoop robot tau dt n (fdStep robot tau dt s)
    (s :: rest.1, qdd :: rest.2)

/-- Result of `run_forward_dynamics`: the time vector and the recorded
position/velocity/acceleration histories converted back to degrees. -/
structure FDResult where
  t_vec : List ℚ
  q_deg : List Vec6
  qd_deg : List Vec6
  qdd_deg : List Vec6

instance : Inhabited FDResult := ⟨⟨[], [], [], []⟩⟩

/-- Embeds `run_forward_dynamics(torque_values, duration_s, dt, q_initial_deg,
qd_initial_deg)`.  `steps = int(duration_s / dt)` (Python `int()` truncates
toward zero; for the positive ratios the guard accepts this equals the
floor, and both are `≤ 0` on exactly the same inputs); `none` models the
`ValueError` raised when `steps <= 0`. -/
noncomputable def run_forward_dynamics (robot : RigidBodyModel)
    (torque_values : Vec6) (duration_s dt : ℚ)
    (q_initial_deg qd_initial_deg : Vec6) : Option FDResult :=
  let steps : ℤ := ⌊duration_s / dt⌋
  if steps ≤ 0 then none
  else
    let t_vec := linspace 0 duration_s steps.toNat
    let s0 := fdInit q_initial_deg qd_initial_deg
    let h := fdLoop robot torque_values (dt : ℝ) steps.toNat s0
    some { t_vec := t_vec
           q_deg := h.1.map (fun s => fun i => radToDeg (s.q i))
           qd_deg := h.1.map (fun s => fun i => radToDeg (s.qd i))
           qdd_deg := h.2.map (fun v => fun i => radToDeg (v i)) }

/-! ## `dynamics.py`: `run_inverse_dynamics` -/

/-- Result of `rtb.jtraj`: quintic position/velocity/acceleration series. -/
structure TrajResult where
  q : List Vec6
  qd : List Vec6
  qdd : List Vec6

/-- Result of `run_inverse_dynamics`. -/
structure IDResult where
  t_vec : List ℚ
  q_deg : List Vec6
  qd_deg : List Vec6
  qdd_deg : List Vec6
  torques : List Vec6

/-- Embeds `run_inverse_dynamics(q_initial_deg, q_target_deg, duration_s, dt)`:
build the `np.arange(0, duration_s + dt, dt)` grid, convert the endpoint
configurations to radians, call the external trajectory generator
(`rtb.jtraj`) and inverse dynamics (`robot.rne`), and convert the motion
series back to degrees. -/
noncomputable def run_inverse_dynamics (robot : RigidBodyModel)
    (jtraj : Vec6 → Vec6 → List ℚ → TrajResult)
    (q_initial_deg q_target_deg : Vec6) (duration_s dt : ℚ) : IDResult :=
  let t_vec := arange 0 (duration_s + dt) dt
  let q_initial_rad : Vec6 := fun i => degToRad (q_initial_deg i)
  let q_target_rad : Vec6 := fun i => degToRad (q_target_deg i)
  let traj := jtraj q_initial_rad q_target_rad t_vec
  let torques := robot.rne traj.q traj.qd traj.qdd
  { t_vec := t_vec
    q_deg := traj.q.map (fun v => fun i => radToDeg (v i))
    qd_deg := traj.qd.map (fun v => fun i => radToDeg (v i))
    qdd_deg := traj.qdd.map (fun v => fun i => radToDeg (v i))
    torques := torques }

/-- A trivial synthetic Rigid-Body Model (double integrator with identity
inertia, no Coriolis or gravity terms), used to instantiate witnesses. -/
noncomputable def trivModel : RigidBodyModel :=
  { accel := fun _ _ _ => fun _ => 0
    inertia := fun _ => 1
    coriolis := fun _ _ => 0
    gravload := fun _ => fun _ => 0
    rne := fun _ _ _ => [] }

/-- A trivial trajectory generator standing in for `rtb.jtraj`. -/
def trivTraj : Vec6 → Vec6 → List ℚ → TrajResult :=
  fun _ _ _ => ⟨[], [], []⟩

lemma radToDeg_degToRad (x : ℝ) : radToDeg (degToRad x) = x := by
  unfold radToDeg degToRad
  field_simp

lemma fdLoop_fst_length (robot : RigidBodyModel) (tau : Vec6) (dt : ℝ)
    (n : ℕ) (s : FDState) : (fdLoop robot tau dt n s).1.length = n := by
  induction n generalizing s with
  | zero => rfl
  | succ m ih => simp [fdLoop, ih]

lemma fdLoop_snd_length (robot : RigidBodyModel) (tau : Vec6) (dt : ℝ)
    (n : ℕ) (s : FDState) : (fdLoop robot tau dt n s).2.length = n := by
  induction n generalizing s with
  | zero => rfl
  | succ m ih => simp [fdLoop, ih]

lemma fdLoop_fst_get? (robot : RigidBodyModel) (tau : Vec6) (dt : ℝ)
    (n k : ℕ) (s : FDState) (hk : k < n) :
    (fdLoop robot tau dt n s).1.get? k = some (fdIter robot tau dt s k) := by
  induction n generalizing s k with
  | zero => omega
  | succ m ih =>
    cases k with
    | zero => simp [fdLoop, fdIter]
    | succ j =>
      have hj : j < m := by omega
      simp only [fdLoop, List.get?_cons_succ]
      rw [ih j _ hj]
      simp [fdIter, Function.iterate_succ_apply]

lemma run_inverse_dynamics_t_vec (robot : RigidBodyModel)
    (jt : Vec6 → Vec6 → List ℚ → TrajResult) (qi qt : Vec6)
    (duration_s dt : ℚ) :
    (run_inverse_dynamics robot jt qi qt duration_s dt).t_vec =
      arange 0 (duration_s + dt) dt := rfl

lemma fdLoop_snd_get? (robot : RigidBodyModel) (tau : Vec6) (dt : ℝ)
    (n k : ℕ) (s : FDState) (hk : k < n) :
    (fdLoop robot tau dt n s).2.get? k =
      some (robot.accel (fdIter robot tau dt s k).q
        (fdIter robot tau dt s k).qd tau) := by
  induction n generalizing s k with
  | zero => omega
  | succ m ih =>
    cases k with
    | zero => simp [fdLoop, fdIter]
    | succ j =>
      have hj : j < m := by omega
      simp only [fdLoop, List.get?_cons_succ]
      rw [ih j _ hj]
      simp [fdIter, Function.iterate_succ_apply]

lemma run_forward_dynamics_char (robot : RigidBodyModel) (tau : Vec6)
    (duration_s dt : ℚ) (q0 qd0 : Vec6) (hs : 1 ≤ ⌊duration_s / dt⌋) :
    run_forward_dynamics robot tau duration_s dt q0 qd0 = some
      { t_vec := linspace 0 duration_s ⌊duration_s / dt⌋.toNat
        q_deg := ((fdLoop robot tau (dt : ℝ) ⌊duration_s / dt⌋.toNat
          (fdInit q0 qd0)).1).map (fun s => fun i => radToDeg (s.q i))
        qd_deg := ((fdLoop robot tau (dt : ℝ) ⌊duration_s / dt⌋.toNat
          (fdInit q0 qd0)).1).map (fun s => fun i => radToDeg (s.qd i))
        qdd_deg := ((fdLoop robot tau (dt : ℝ) ⌊duration_s / dt⌋.toNat
          (fdInit q0 qd0)).2).map (fun v => fun i => radToDeg (v i)) } := by
  unfold run_forward_dynamics
  rw [if_neg (by omega)]

lemma fdIter_zero (robot : RigidBodyModel) (tau : Vec6) (dt : ℝ)
    (s : FDState) : fdIter robot tau dt s 0 = s := rfl

/-- C4: with `floor(duration/dt) ≥ 1` the forward-dynamics run succeeds
and returns histories of length exactly `floor(duration/dt)`; the sample
recorded at step `k` is the state *before* the `k`-th Euler update, so
entry 0 is the initial state and the state after the final update is never
recorded. -/
theorem run_forward_dynamics_pre_update_records (robot : RigidBodyModel)
    (tau : Vec6) (duration_s dt : ℚ) (q0 qd0 : Vec6)
    (hd : 0 < duration_s) (ht : 0 < dt) (hs : 1 ≤ ⌊duration_s / dt⌋) :
    ∃ r, run_forward_dynamics robot tau duration_s dt q0 qd0 = some r ∧
      r.q_deg.length = ⌊duration_s / dt⌋.toNat ∧
      r.qd_deg.length = ⌊duration_s / dt⌋.toNat ∧
      r.qdd_deg.length = ⌊duration_s / dt⌋.toNat ∧
      r.q_deg.get? 0 = some q0 ∧
      ∀ k, k < ⌊duration_s / dt⌋.toNat →
        r.q_deg.get? k = some (fun i =>
          radToDeg ((fdIter robot tau (dt : ℝ) (fdInit q0 qd0) k).q i)) ∧
        r.qd_deg.get? k = some (fun i =>
          radToDeg ((fdIter robot tau (dt : ℝ) (fdInit q0 qd0) k).qd i)) := by
  refine ⟨_, run_forward_dynamics_char robot tau duration_s dt q0 qd0 hs,
    ?_, ?_, ?_, ?_, ?_⟩
  · simp [fdLoop_fst_length]
  · simp [fdLoop_fst_length]
  · simp [fdLoop_snd_length]
  · have h0 : 0 < ⌊duration_s / dt⌋.toNat := by omega
    rw [List.get?_map, fdLoop_fst_get? robot tau _ _ 0 _ h0, fdIter_zero]
    simp only [Option.map_some']
    congr 1
    funext i
    exact radToDeg_degToRad (q0 i)
  · intro k hk
    constructor
    · rw [List.get?_map, fdLoop_fst_get? robot tau _ _ k _ hk]
      rfl
    · rw [List.get?_map, fdLoop_fst_get? robot tau _ _ k _ hk]
      rfl

theorem run_forward_dynamics_pre_update_records_witness :
    (0 : ℚ) < 4/5 ∧ (0 : ℚ) < 1/100 ∧ 1 ≤ ⌊(4/5 : ℚ) / (1/100)⌋ ∧
    ∃ r, run_forward_dynamics trivModel (fun _ => 0) (4/5) (1/100)
        (fun _ => 0) (fun _ => 0) = some r ∧ r.q_deg.length = 80 := by
  refine ⟨by norm_num, by norm_num, by norm_num, ?_⟩
  obtain ⟨r, hr, hlen, -⟩ := run_forward_dynamics_pre_update_records
    trivModel (fun _ => 0) (4/5) (1/100) (fun _ => 0) (fun _ => 0)
    (by norm_num) (by norm_num) (by norm_num)
  exact ⟨r, hr, by rw [hlen]; norm_num; rfl⟩

/-- C2 counterexample: with initial position 180 degrees on every joint,
the position value the integrator feeds to the model's accel at the first
step is π, not the caller's 180 — the values passed are not the caller's
unchanged. -/
theorem fdInit_not_callers_values :
    (fdInit (fun _ => 180) (fun _ => 0)).q 0 ≠ 180 := by
  show degToRad 180 ≠ 180
  unfold degToRad
  have h1 : (180 : ℝ) * (Real.pi / 180) = Real.pi := by field_simp
  rw [h1]
  intro h
  have h4 := Real.pi_le_four
  rw [h] at h4
  norm_num at h4

/-- C2 (amended): the integrator converts units at its own boundary — the
state it hands to the model is the caller's vectors scaled by `π/180`, and
the recorded histories are scaled back to degrees, so entry 0 equals the
caller's initial vectors exactly. -/
theorem run_forward_dynamics_unit_conversion (robot : RigidBodyModel)
    (tau : Vec6) (duration_s dt : ℚ) (q0 qd0 : Vec6)
    (hs : 1 ≤ ⌊duration_s / dt⌋) :
    ((fdInit q0 qd0).q = fun i => q0 i * (Real.pi / 180)) ∧
    ((fdInit q0 qd0).qd = fun i => qd0 i * (Real.pi / 180)) ∧
    ∃ r, run_forward_dynamics robot tau duration_s dt q0 qd0 = some r ∧
      r.q_deg.get? 0 = some q0 ∧ r.qd_deg.get? 0 = some qd0 := by
  refine ⟨rfl, rfl, _,
    run_forward_dynamics_char robot tau duration_s dt q0 qd0 hs, ?_, ?_⟩
  · have h0 : 0 < ⌊duration_s / dt⌋.toNat := by omega
    rw [List.get?_map, fdLoop_fst_get? robot tau _ _ 0 _ h0, fdIter_zero]
    simp only [Option.map_some']
    congr 1
    funext i
    exact radToDeg_degToRad (q0 i)
  · have h0 : 0 < ⌊duration_s / dt⌋.toNat := by omega
    rw [List.get?_map, fdLoop_fst_get? robot tau _ _ 0 _ h0, fdIter_zero]
    simp only [Option.map_some']
    congr 1
    funext i
    exact radToDeg_degToRad (qd0 i)

theorem run_forward_dynamics_unit_conversion_witness :
    1 ≤ ⌊(4/5 : ℚ) / (1/100)⌋ ∧
    ∃ r, run_forward_dynamics trivModel (fun _ => 0) (4/5) (1/100)
        (fun _ => 1) (fun _ => 0) = some r ∧
      r.q_deg.get? 0 = some (fun _ => 1) := by
  refine ⟨by norm_num, ?_⟩
  obtain ⟨-, -, r, hr, hq, -⟩ := run_forward_dynamics_unit_conversion
    trivModel (fun _ => 0) (4/5) (1/100) (fun _ => 1) (fun _ => 0)
    (by norm_num)
  exact ⟨r, hr, hq⟩

lemma run_forward_dynamics_none (robot : RigidBodyModel) (tau : Vec6)
    (duration_s dt : ℚ) (q0 qd0 : Vec6) (hs : ⌊duration_s / dt⌋ ≤ 0) :
    run_forward_dynamics robot tau duration_s dt q0 qd0 = none := by
  unfold run_forward_dynamics
  rw [if_pos hs]

lemma run_forward_dynamics_steps_pos (robot : RigidBodyModel) (tau : Vec6)
    (duration_s dt : ℚ) (q0 qd0 : Vec6) (r : FDResult)
    (hr : run_forward_dynamics robot tau duration_s dt q0 qd0 = some r) :
    1 ≤ ⌊duration_s / dt⌋ := by
  by_contra h
  rw [run_forward_dynamics_none robot tau duration_s dt q0 qd0 (by omega)] at hr
  exact Option.noConfusion hr

lemma run_forward_dynamics_t_vec (robot : RigidBodyModel) (tau : Vec6)
    (duration_s dt : ℚ) (q0 qd0 : Vec6) (r : FDResult)
    (hr : run_forward_dynamics robot tau duration_s dt q0 qd0 = some r) :
    r.t_vec = linspace 0 duration_s ⌊duration_s / dt⌋.toNat := by
  have hs := run_forward_dynamics_steps_pos robot tau duration_s dt q0 qd0 r hr
  have hchar := run_forward_dynamics_char robot tau duration_s dt q0 qd0 hs
  rw [hchar] at hr
  rw [← Option.some.inj hr]

/-- C5 counterexample: for duration 1 and step 2/5 (which does not divide
the duration) the inverse-dynamics grid has 4 samples, not
`floor(duration/dt) + 1 = 3`, and the endpoint `duration = 1` is not in
the grid. -/
theorem run_inverse_dynamics_grid_cex :
    (run_inverse_dynamics trivModel trivTraj (fun _ => 0) (fun _ => 0)
        1 (2/5)).t_vec.length ≠ ⌊(1 : ℚ) / (2/5)⌋.toNat + 1 ∧
    (1 : ℚ) ∉ (run_inverse_dynamics trivModel trivTraj (fun _ => 0)
        (fun _ => 0) 1 (2/5)).t_vec := by
  constructor
  · rw [run_inverse_dynamics_t_vec, arange_length]
    have h1 : ⌈((1 : ℚ) + 2/5 - 0) / (2/5)⌉ = 4 := by
      rw [Int.ceil_eq_iff]
      norm_num
    have h2 : ⌊(1 : ℚ) / (2/5)⌋ = 2 := by
      rw [Int.floor_eq_iff]
      norm_num
    rw [h1, h2]
    decide
  · intro hmem
    rw [run_inverse_dynamics_t_vec] at hmem
    unfold arange at hmem
    rw [List.mem_map] at hmem
    obtain ⟨k, -, hval⟩ := hmem
    have h2 : ((2 * k : ℕ) : ℚ) = 5 := by push_cast; linarith
    have h3 : (2 * k : ℕ) = 5 := by exact_mod_cast h2
    omega

/-- C5 (amended): when `dt` divides the duration (`duration = k*dt` with
`k ≥ 1`) the inverse-dynamics time grid has exactly
`floor(duration/dt) + 1 = k + 1` samples and includes both endpoints `0`
and `duration`; in particular duration 2.0 at dt 0.01 gives 201 samples
from 0 to 2.0 inclusive. -/
theorem run_inverse_dynamics_grid (robot : RigidBodyModel)
    (jt : Vec6 → Vec6 → List ℚ → TrajResult) (qi qt : Vec6)
    (duration_s dt : ℚ) (k : ℕ) (ht : 0 < dt) (hk : 0 < k)
    (hdur : duration_s = k * dt) :
    ⌊duration_s / dt⌋ = k ∧
    (run_inverse_dynamics robot jt qi qt duration_s dt).t_vec.length = k + 1 ∧
    (run_inverse_dynamics robot jt qi qt duration_s dt).t_vec.get? 0 =
      some 0 ∧
    (run_inverse_dynamics robot jt qi qt duration_s dt).t_vec.get? k =
      some duration_s := by
  have hdt : dt ≠ 0 := ne_of_gt ht
  have hratio : duration_s / dt = (k : ℚ) := by
    rw [hdur, mul_div_assoc, div_self hdt, mul_one]
  have hceil : ⌈(duration_s + dt - 0) / dt⌉ = ((k + 1 : ℕ) : ℤ) := by
    rw [sub_zero, add_div, hratio, div_self hdt]
    rw [show (k : ℚ) + 1 = ((k + 1 : ℕ) : ℚ) by push_cast; ring]
    exact Int.ceil_natCast _
  have hlen : ⌈((duration_s + dt) - 0) / dt⌉.toNat = k + 1 := by
    rw [hceil]; omega
  refine ⟨by rw [hratio]; exact Int.floor_natCast k, ?_, ?_, ?_⟩
  · rw [run_inverse_dynamics_t_vec, arange_length, hlen]
  · rw [run_inverse_dynamics_t_vec, arange_get? _ _ _ 0 (by omega)]
    norm_num
  · rw [run_inverse_dynamics_t_vec, arange_get? _ _ _ k (by omega)]
    rw [zero_add, mul_comm, ← hdur]

theorem run_inverse_dynamics_grid_witness :
    (0 : ℚ) < 1/100 ∧ 0 < 200 ∧ (2 : ℚ) = (200 : ℕ) * (1/100) ∧
    (run_inverse_dynamics trivModel trivTraj (fun _ => 0) (fun _ => 0)
        2 (1/100)).t_vec.length = 201 ∧
    (run_inverse_dynamics trivModel trivTraj (fun _ => 0) (fun _ => 0)
        2 (1/100)).t_vec.get? 0 = some 0 ∧
    (run_inverse_dynamics trivModel trivTraj (fun _ => 0) (fun _ => 0)
        2 (1/100)).t_vec.get? 200 = some 2 := by
  obtain ⟨-, h1, h2, h3⟩ := run_inverse_dynamics_grid trivModel trivTraj
    (fun _ => 0) (fun _ => 0) 2 (1/100) 200 (by norm_num) (by norm_num)
    (by norm_num)
  exact ⟨by norm_num, by norm_num, by norm_num, h1, h2, h3⟩

/-- C8 counterexample: the Forward Dynamics time vector for duration 0.8
and dt 0.01 is spaced by 0.8/79, not by the caller-supplied dt = 0.01. -/
theorem forward_grid_spacing_cex :
    ((run_forward_dynamics trivModel (fun _ => 0) (4/5) (1/100) (fun _ => 0)
        (fun _ => 0)).getD default).t_vec.get? 0 = some 0 ∧
    ((run_forward_dynamics trivModel (fun _ => 0) (4/5) (1/100) (fun _ => 0)
        (fun _ => 0)).getD default).t_vec.get? 1 = some (4/395) ∧
    (4/395 : ℚ) - 0 ≠ 1/100 := by
  have hchar := run_forward_dynamics_char trivModel (fun _ => 0) (4/5) (1/100)
    (fun _ => 0) (fun _ => 0) (by norm_num)
  rw [hchar, Option.getD_some]
  show (linspace 0 (4/5) ⌊(4/5 : ℚ) / (1/100)⌋.toNat).get? 0 = some 0 ∧
      (linspace 0 (4/5) ⌊(4/5 : ℚ) / (1/100)⌋.toNat).get? 1 = some (4/395) ∧
      (4/395 : ℚ) - 0 ≠ 1/100
  have hfl : ⌊(4/5 : ℚ) / (1/100)⌋ = 80 := by norm_num
  rw [hfl]
  refine ⟨?_, ?_, by norm_num⟩
  · rw [show Int.toNat 80 = 80 from rfl,
      linspace_get? 0 (4/5) 80 0 (by norm_num) (by norm_num)]
    congr 1
    norm_num
  · rw [show Int.toNat 80 = 80 from rfl,
      linspace_get? 0 (4/5) 80 1 (by norm_num) (by norm_num)]
    congr 1
    norm_num

/-- C8 (amended): both solvers' time grids are strictly increasing with
uniform spacing, but only the Inverse Dynamics grid is spaced by the
caller's `dt`; the Forward Dynamics grid `linspace(0, duration, steps)` is
spaced by `duration/(steps - 1)` with `steps = floor(duration/dt)`. -/
theorem time_grid_uniform_spacing (robot : RigidBodyModel)
    (jt : Vec6 → Vec6 → List ℚ → TrajResult) (tau q0 qd0 qi qt : Vec6)
    (duration_s dt : ℚ) (hd : 0 < duration_s) (ht : 0 < dt) :
    (∀ k : ℕ,
      k + 1 < (run_inverse_dynamics robot jt qi qt duration_s dt).t_vec.length →
      ∃ a b,
        (run_inverse_dynamics robot jt qi qt duration_s dt).t_vec.get? k =
          some a ∧
        (run_inverse_dynamics robot jt qi qt duration_s dt).t_vec.get? (k+1) =
          some b ∧ b - a = dt ∧ a < b) ∧
    (∀ r, run_forward_dynamics robot tau duration_s dt q0 qd0 = some r →
      ∀ k : ℕ, k + 1 < r.t_vec.length →
      ∃ a b, r.t_vec.get? k = some a ∧ r.t_vec.get? (k+1) = some b ∧
        b - a = duration_s / ((⌊duration_s / dt⌋ : ℚ) - 1) ∧ a < b) := by
  constructor
  · intro k hk1
    rw [run_inverse_dynamics_t_vec, arange_length] at hk1
    refine ⟨_, _, by rw [run_inverse_dynamics_t_vec,
        arange_get? _ _ _ k (by omega)],
      by rw [run_inverse_dynamics_t_vec, arange_get? _ _ _ (k+1) hk1],
      ?_, ?_⟩
    · push_cast
      ring
    · have hlt : (k : ℚ) < ((k + 1 : ℕ) : ℚ) := by push_cast; linarith
      have := mul_lt_mul_of_pos_left hlt ht
      linarith
  · intro r hr k hk1
    have hs := run_forward_dynamics_steps_pos robot tau duration_s dt q0 qd0 r hr
    have htv := run_forward_dynamics_t_vec robot tau duration_s dt q0 qd0 r hr
    rw [htv] at hk1 ⊢
    rw [linspace_length] at hk1
    have hn2 : 2 ≤ ⌊duration_s / dt⌋.toNat := by omega
    have hnn : (0 : ℤ) ≤ ⌊duration_s / dt⌋ := by omega
    have hcast : ((⌊duration_s / dt⌋.toNat : ℕ) : ℚ) =
        ((⌊duration_s / dt⌋ : ℤ) : ℚ) := by
      exact_mod_cast Int.toNat_of_nonneg hnn
    have hden : (0 : ℚ) < ((⌊duration_s / dt⌋ : ℤ) : ℚ) - 1 := by
      have h2 : (2 : ℤ) ≤ ⌊duration_s / dt⌋ := by omega
      have h2q : (2 : ℚ) ≤ ((⌊duration_s / dt⌋ : ℤ) : ℚ) := by exact_mod_cast h2
      linarith
    have hne : ((⌊duration_s / dt⌋.toNat : ℕ) : ℚ) - 1 ≠ 0 := by
      rw [hcast]; exact ne_of_gt hden
    refine ⟨_, _, linspace_get? 0 duration_s _ k hn2 (by omega),
      linspace_get? 0 duration_s _ (k+1) hn2 hk1, ?_, ?_⟩
    · rw [hcast]
      have hne2 : ((⌊duration_s / dt⌋ : ℤ) : ℚ) - 1 ≠ 0 := ne_of_gt hden
      field_simp
      push_cast
      ring
    · have hsub :
          (0 + (duration_s - 0) * ((k + 1 : ℕ) : ℚ) /
              (((⌊duration_s / dt⌋.toNat : ℕ) : ℚ) - 1)) -
            (0 + (duration_s - 0) * ((k : ℕ) : ℚ) /
              (((⌊duration_s / dt⌋.toNat : ℕ) : ℚ) - 1)) =
            duration_s / (((⌊duration_s / dt⌋ : ℤ) : ℚ) - 1) := by
        rw [hcast]
        have hne2 : ((⌊duration_s / dt⌋ : ℤ) : ℚ) - 1 ≠ 0 := ne_of_gt hden
        field_simp
        push_cast
        ring
      have hpos : 0 < duration_s / (((⌊duration_s / dt⌋ : ℤ) : ℚ) - 1) :=
        div_pos hd hden
      linarith [hsub, hpos]

theorem time_grid_uniform_spacing_witness :
    (0 : ℚ) < 4/5 ∧ (0 : ℚ) < 1/100 ∧
    ∃ a b, (run_inverse_dynamics trivModel trivTraj (fun _ => 0) (fun _ => 0)
        (4/5) (1/100)).t_vec.get? 0 = some a ∧
      (run_inverse_dynamics trivModel trivTraj (fun _ => 0) (fun _ => 0)
        (4/5) (1/100)).t_vec.get? 1 = some b ∧ b - a = 1/100 ∧ a < b := by
  refine ⟨by norm_num, by norm_num, ?_⟩
  have h := (time_grid_uniform_spacing trivModel trivTraj (fun _ => 0)
    (fun _ => 0) (fun _ => 0) (fun _ => 0) (fun _ => 0) (4/5) (1/100)
    (by norm_num) (by norm_num)).1 0 ?_
  · exact h
  · rw [run_inverse_dynamics_t_vec, arange_length]
    have h1 : ⌈((4/5 : ℚ) + 1/100 - 0) / (1/100)⌉ = 81 := by norm_num
    rw [h1]
    norm_num

/-! ## `pid_controller.py`: `run_pid_controller` (Closed-Loop Simulator) -/

/-- The joint indices `range(6)` of the per-joint loops. -/
def jointIdx : List (Fin 6) := [0, 1, 2, 3, 4, 5]

/-- The time grid `t_steps = np.linspace(0, 10, 1000)`. -/
def tStepsCL : List ℚ := linspace 0 10 1000

/-- The step `dt = t_steps[1] - t_steps[0]`, as the exact rational. -/
def dtQ : ℚ := tStepsCL.getD 1 0 - tStepsCL.getD 0 0

/-- The closed-loop step size as a real number. -/
noncomputable def dtCL : ℝ := (dtQ : ℝ)

instance : Inhabited PIDValue := ⟨⟨0, 0, 0⟩⟩

/-- Embeds `pids = [PIDController(Kp=pid_values[i].Kp, setpoint=setpoints[i])
for i in range(len(setpoints))]`; the `pid_values[i]` access can go out of
range (`none` models the IndexError). -/
noncomputable def buildPids (setpoints : List ℝ) (pid_values : List PIDValue) :
    Option (List (PIDController ℝ)) :=
  (List.range setpoints.length).mapM (fun i => do
    let pv ← pid_values.get? i
    let sp ← setpoints.get? i
    pure (PIDController.make pv.Kp pv.Ki pv.Kd sp))

/-- The value `buildPids` produces when every access is in range. -/
noncomputable def buildPidsP (setpoints : List ℝ) (pid_values : List PIDValue) :
    List (PIDController ℝ) :=
  (List.range setpoints.length).map (fun i =>
    PIDController.make (pid_values.getD i default).Kp
      (pid_values.getD i default).Ki (pid_values.getD i default).Kd
      (setpoints.getD i 0))

/-- Mutable state of the simulation loop.  The source stores the recorded
series joint-major (`q_values[i].append(...)` for each joint `i`); here
the same records are stored step-major, one joint vector per step. -/
structure CLState where
  pids : List (PIDController ℝ)
  q : Vec6
  qd : Vec6
  q_values : List Vec6
  u_values : List Vec6

/-- The list comprehension
`tau_pid = np.array([pids[i].update(q[i], dt) for i in range(6)])`:
each controller is read (`pids[i]`, IndexError modelled as `none`),
updated, and written back; outputs are collected in order. -/
noncomputable def updatePids (dt : ℝ) (q : Vec6) :
    List (PIDController ℝ) → List (Fin 6) →
      Option (List (PIDController ℝ) × List ℝ)
  | pids, [] => some (pids, [])
  | pids, i :: rest => do
    let c ← pids.get? i.val
    let r := c.update (q i) dt
    let rec2 ← updatePids dt q (pids.set i.val r.2) rest
    pure (rec2.1, r.1 :: rec2.2)

/-- The value `updatePids` produces when every index is in range. -/
noncomputable def updatePidsP (dt : ℝ) (q : Vec6) :
    List (PIDController ℝ) → List (Fin 6) →
      List (PIDController ℝ) × List ℝ
  | pids, [] => (pids, [])
  | pids, i :: rest =>
    let c := pids.getD i.val (PIDController.make 0 0 0 0)
    let r := c.update (q i) dt
    let rec2 := updatePidsP dt q (pids.set i.val r.2) rest
    (rec2.1, r.1 :: rec2.2)

/-- The `tau_vector` (equal to `tau_pid`; the gravity feed-forward line is
commented out in the source) applied and recorded at a state. -/
noncomputable def clTauP (dt : ℝ) (s : CLState) : Vec6 :=
  fun i => (updatePidsP dt s.q s.pids jointIdx).2.getD i.val 0

/-- One iteration of the simulation loop: query `M`, `C`, `G`, update the
six controllers, solve `qdd = M⁻¹ (tau - C qd - G)`, integrate
`qd += qdd*dt; q += qd*dt`, then record `rad2deg(q)` and `tau_vector`. -/
noncomputable def clStep (robot : RigidBodyModel) (dt : ℝ) (s : CLState) :
    Option CLState := do
  let M := robot.inertia s.q
  let C := robot.coriolis s.q s.qd
  let G := robot.gravload s.q
  let upd ← updatePids dt s.q s.pids jointIdx
  let tau_pid : Vec6 := fun i => upd.2.getD i.val 0
  let tau_vector : Vec6 := tau_pid
  let qdd : Vec6 := M⁻¹ *ᵥ (tau_vector - C *ᵥ s.qd - G)
  let qd2 : Vec6 := fun i => s.qd i + qdd i * dt
  let q2 : Vec6 := fun i => s.q i + qd2 i * dt
  pure { pids := upd.1, q := q2, qd := qd2
         q_values := s.q_values ++ [fun i => radToDeg (q2 i)]
         u_values := s.u_values ++ [tau_vector] }

/-- The total step taken on the in-range (six-controller) path. -/
noncomputable def clStepP (robot : RigidBodyModel) (dt : ℝ) (s : CLState) :
    CLState :=
  let tau_vector : Vec6 := clTauP dt s
  let qdd : Vec6 := (robot.inertia s.q)⁻¹ *ᵥ
    (tau_vector - robot.coriolis s.q s.qd *ᵥ s.qd - robot.gravload s.q)
  let qd2 : Vec6 := fun i => s.qd i + qdd i * dt
  let q2 : Vec6 := fun i => s.q i + qd2 i * dt
  { pids := (updatePidsP dt s.q s.pids jointIdx).1, q := q2, qd := qd2
    q_values := s.q_values ++ [fun i => radToDeg (q2 i)]
    u_values := s.u_values ++ [clTauP dt s] }

/-- The simulation loop `for _ in t_steps`, one `clStep` per time sample. -/
noncomputable def clLoop (robot : RigidBodyModel) (dt : ℝ) :
    ℕ → CLState → Option CLState
  | 0, s => some s
  | Nat.succ n, s => do
    let s2 ← clStep robot dt s
    clLoop robot dt n s2

/-- The state entering the loop: fresh controllers, `q = qd = zeros(6)`,
empty record lists. -/
noncomputable def clInit (pids : List (PIDController ℝ)) : CLState :=
  { pids := pids, q := fun _ => 0, qd := fun _ => 0
    q_values := [], u_values := [] }

/-- Embeds `run_pid_controller(setpoints, pid_values)`: build the controllers,
run the 1000-sample loop, and return the time grid with the recorded
position (degrees) and torque series. -/
noncomputable def run_pid_controller (robot : RigidBodyModel)
    (setpoints : List ℝ) (pid_values : List PIDValue) :
    Option (List ℚ × List Vec6 × List Vec6) := do
  let pids ← buildPids setpoints pid_values
  let s ← clLoop robot dtCL tStepsCL.length (clInit pids)
  pure (tStepsCL, s.q_values, s.u_values)

lemma mapM_eq_map_of_some {α β : Type} (f : α → Option β) (g : α → β)
    (l : List α) (h : ∀ a ∈ l, f a = some (g a)) :
    l.mapM f = some (l.map g) := by
  induction l with
  | nil => rfl
  | cons x xs ih =>
    rw [List.mapM_cons, h x (by simp), ih (fun a ha => h a (by simp [ha]))]
    rfl

lemma get?_eq_some_getD {β : Type} (l : List β) (d : β) (i : ℕ)
    (h : i < l.length) : l.get? i = some (l.getD i d) := by
  rw [List.getD_eq_get?, List.get?_eq_get h]
  rfl

lemma buildPidsP_length (setpoints : List ℝ) (pid_values : List PIDValue) :
    (buildPidsP setpoints pid_values).length = setpoints.length := by
  simp [buildPidsP]

lemma buildPids_eq (setpoints : List ℝ) (pid_values : List PIDValue)
    (h : setpoints.length ≤ pid_values.length) :
    buildPids setpoints pid_values =
      some (buildPidsP setpoints pid_values) := by
  unfold buildPids buildPidsP
  apply mapM_eq_map_of_some
  intro i hi
  rw [List.mem_range] at hi
  rw [get?_eq_some_getD pid_values default i (by omega),
    get?_eq_some_getD setpoints 0 i hi]
  rfl

lemma updatePidsP_fst_length (dt : ℝ) (q : Vec6) (is : List (Fin 6))
    (pids : List (PIDController ℝ)) :
    (updatePidsP dt q pids is).1.length = pids.length := by
  induction is generalizing pids with
  | nil => rfl
  | cons i rest ih =>
    show (updatePidsP dt q (pids.set i.val _) rest).1.length = pids.length
    rw [ih, List.length_set]

lemma updatePids_eq (dt : ℝ) (q : Vec6) (is : List (Fin 6))
    (pids : List (PIDController ℝ)) (h : ∀ i ∈ is, i.val < pids.length) :
    updatePids dt q pids is = some (updatePidsP dt q pids is) := by
  induction is generalizing pids with
  | nil => rfl
  | cons i rest ih =>
    have hi : i.val < pids.length := h i (by simp)
    show (pids.get? i.val).bind _ = _
    rw [get?_eq_some_getD pids (PIDController.make 0 0 0 0) i.val hi]
    show (updatePids dt q (pids.set i.val _) rest).bind _ = _
    rw [ih (pids.set i.val _) (fun j hj => by
      rw [List.length_set]; exact h j (by simp [hj]))]
    rfl

lemma clStep_eq (robot : RigidBodyModel) (dt : ℝ) (s : CLState)
    (h : s.pids.length = 6) :
    clStep robot dt s = some (clStepP robot dt s) := by
  unfold clStep clStepP
  rw [updatePids_eq dt s.q jointIdx s.pids (by
    intro i hi
    rw [h]
    exact i.isLt)]
  rfl

lemma clStepP_pids_length (robot : RigidBodyModel) (dt : ℝ) (s : CLState) :
    (clStepP robot dt s).pids.length = s.pids.length := by
  show (updatePidsP dt s.q s.pids jointIdx).1.length = s.pids.length
  exact updatePidsP_fst_length dt s.q jointIdx s.pids

lemma clIter_pids_length (robot : RigidBodyModel) (dt : ℝ) (s : CLState)
    (n : ℕ) :
    (((clStepP robot dt)^[n]) s).pids.length = s.pids.length := by
  induction n with
  | zero => rfl
  | succ m ih =>
    rw [Function.iterate_succ_apply', clStepP_pids_length, ih]

lemma clLoop_eq (robot : RigidBodyModel) (dt : ℝ) (n : ℕ) (s : CLState)
    (h : s.pids.length = 6) :
    clLoop robot dt n s = some (((clStepP robot dt)^[n]) s) := by
  induction n generalizing s with
  | zero => rfl
  | succ m ih =>
    show (clStep robot dt s).bind _ = _
    rw [clStep_eq robot dt s h]
    show clLoop robot dt m (clStepP robot dt s) = _
    rw [ih (clStepP robot dt s) (by rw [clStepP_pids_length, h]),
      Function.iterate_succ_apply]

lemma tStepsCL_length : tStepsCL.length = 1000 := linspace_length 0 10 1000

lemma run_pid_controller_eq (robot : RigidBodyModel) (setpoints : List ℝ)
    (pid_values : List PIDValue) (h1 : setpoints.length = 6)
    (h2 : setpoints.length ≤ pid_values.length) :
    run_pid_controller robot setpoints pid_values = some (tStepsCL,
      (((clStepP robot dtCL)^[1000])
        (clInit (buildPidsP setpoints pid_values))).q_values,
      (((clStepP robot dtCL)^[1000])
        (clInit (buildPidsP setpoints pid_values))).u_values) := by
  unfold run_pid_controller
  rw [buildPids_eq setpoints pid_values h2, tStepsCL_length]
  simp only [Option.bind_eq_bind, Option.some_bind]
  rw [clLoop_eq robot dtCL 1000 _ (by
    show (buildPidsP setpoints pid_values).length = 6
    rw [buildPidsP_length, h1])]
  simp only [Option.some_bind]
  rfl

lemma clStepP_q_values (robot : RigidBodyModel) (dt : ℝ) (s : CLState) :
    (clStepP robot dt s).q_values =
      s.q_values ++ [fun i => radToDeg ((clStepP robot dt s).q i)] := rfl

lemma clStepP_u_values (robot : RigidBodyModel) (dt : ℝ) (s : CLState) :
    (clStepP robot dt s).u_values = s.u_values ++ [clTauP dt s] := rfl

lemma clIter_q_values (robot : RigidBodyModel) (dt : ℝ) (s : CLState)
    (n : ℕ) :
    (((clStepP robot dt)^[n]) s).q_values =
      s.q_values ++ (List.range n).map (fun j => fun i =>
        radToDeg ((((clStepP robot dt)^[j+1]) s).q i)) := by
  induction n with
  | zero => simp
  | succ m ih =>
    rw [Function.iterate_succ_apply', clStepP_q_values, ih, List.range_succ]
    rw [List.map_append, ← List.append_assoc]
    congr 2
    simp [Function.iterate_succ_apply']

lemma clIter_u_values (robot : RigidBodyModel) (dt : ℝ) (s : CLState)
    (n : ℕ) :
    (((clStepP robot dt)^[n]) s).u_values =
      s.u_values ++ (List.range n).map (fun j =>
        clTauP dt (((clStepP robot dt)^[j]) s)) := by
  induction n with
  | zero => simp
  | succ m ih =>
    rw [Function.iterate_succ_apply', clStepP_u_values, ih, List.range_succ]
    rw [List.map_append, ← List.append_assoc]
    simp

lemma clIter_q_values_length (robot : RigidBodyModel) (dt : ℝ)
    (s : CLState) (n : ℕ) :
    (((clStepP robot dt)^[n]) s).q_values.length =
      s.q_values.length + n := by
  induction n with
  | zero => rfl
  | succ m ih =>
    rw [Function.iterate_succ_apply', clStepP_q_values, List.length_append,
      ih]
    simp
    omega

lemma clIter_u_values_length (robot : RigidBodyModel) (dt : ℝ)
    (s : CLState) (n : ℕ) :
    (((clStepP robot dt)^[n]) s).u_values.length =
      s.u_values.length + n := by
  induction n with
  | zero => rfl
  | succ m ih =>
    rw [Function.iterate_succ_apply', clStepP_u_values, List.length_append,
      ih]
    simp
    omega

lemma clIter_q_values_get? (robot : RigidBodyModel) (dt : ℝ) (s : CLState)
    (n k : ℕ) (hs : s.q_values = []) (hk : k < n) :
    (((clStepP robot dt)^[n]) s).q_values.get? k =
      some (fun i => radToDeg ((((clStepP robot dt)^[k+1]) s).q i)) := by
  rw [clIter_q_values, hs, List.nil_append, List.get?_map,
    List.get?_range hk]
  rfl

lemma clIter_q_values_mem (robot : RigidBodyModel) (dt : ℝ) (s : CLState)
    (n : ℕ) (hs : s.q_values = []) (v : Vec6)
    (hv : v ∈ (((clStepP robot dt)^[n]) s).q_values) :
    ∃ j, j < n ∧ v = fun i => radToDeg ((((clStepP robot dt)^[j+1]) s).q i)
    := by
  rw [clIter_q_values, hs, List.nil_append] at hv
  obtain ⟨j, hj, rfl⟩ := List.mem_map.mp hv
  exact ⟨j, List.mem_range.mp hj, rfl⟩

lemma clIter_u_values_mem (robot : RigidBodyModel) (dt : ℝ) (s : CLState)
    (n : ℕ) (hs : s.u_values = []) (v : Vec6)
    (hv : v ∈ (((clStepP robot dt)^[n]) s).u_values) :
    ∃ j, j < n ∧ v = clTauP dt (((clStepP robot dt)^[j]) s) := by
  rw [clIter_u_values, hs, List.nil_append] at hv
  obtain ⟨j, hj, rfl⟩ := List.mem_map.mp hv
  exact ⟨j, List.mem_range.mp hj, rfl⟩

/-- A controller whose three gains are all zero. -/
def zeroGains (c : PIDController ℝ) : Prop :=
  c.Kp = 0 ∧ c.Ki = 0 ∧ c.Kd = 0

lemma update_preserves_gains (c : PIDController ℝ) (m dt : ℝ)
    (h : zeroGains c) : zeroGains ((c.update m dt).2) := h

lemma update_out_zero (c : PIDController ℝ) (m dt : ℝ) (h : zeroGains c) :
    (c.update m dt).1 = 0 := by
  show c.Kp * _ + c.Ki * _ + c.Kd * _ = 0
  rw [h.1, h.2.1, h.2.2]
  ring

lemma getD_zeroGains (pids : List (PIDController ℝ)) (n : ℕ)
    (h : ∀ c ∈ pids, zeroGains c) :
    zeroGains (pids.getD n (PIDController.make 0 0 0 0)) := by
  rcases lt_or_le n pids.length with hn | hn
  · exact h _ (List.get?_mem
      (get?_eq_some_getD pids (PIDController.make 0 0 0 0) n hn))
  · rw [List.getD_eq_get?, List.get?_eq_none.mpr hn]
    exact ⟨rfl, rfl, rfl⟩

lemma updatePidsP_zero (dt : ℝ) (q : Vec6) (is : List (Fin 6))
    (pids : List (PIDController ℝ)) (h : ∀ c ∈ pids, zeroGains c) :
    (∀ c ∈ (updatePidsP dt q pids is).1, zeroGains c) ∧
    (∀ u ∈ (updatePidsP dt q pids is).2, u = 0) := by
  induction is generalizing pids with
  | nil =>
    refine ⟨h, ?_⟩
    intro u hu
    simp [updatePidsP] at hu
  | cons i rest ih =>
    have hc : zeroGains (pids.getD i.val (PIDController.make 0 0 0 0)) :=
      getD_zeroGains pids i.val h
    have hset : ∀ c ∈ pids.set i.val
        (((pids.getD i.val (PIDController.make 0 0 0 0)).update
          (q i) dt).2), zeroGains c := by
      intro c hcmem
      rcases List.mem_or_eq_of_mem_set hcmem with hmem | rfl
      · exact h c hmem
      · exact update_preserves_gains _ _ _ hc
    have hrest := ih _ hset
    refine ⟨hrest.1, ?_⟩
    intro u hu
    have hu2 : u ∈ ((pids.getD i.val
        (PIDController.make 0 0 0 0)).update (q i) dt).1 ::
        (updatePidsP dt q (pids.set i.val
          (((pids.getD i.val (PIDController.make 0 0 0 0)).update
            (q i) dt).2)) rest).2 := hu
    rcases List.mem_cons.mp hu2 with rfl | hmem
    · exact update_out_zero _ _ _ hc
    · exact hrest.2 u hmem

lemma getD_eq_zero_of_all {l : List ℝ} (h : ∀ x ∈ l, x = 0) (n : ℕ) :
    l.getD n 0 = 0 := by
  induction l generalizing n with
  | nil => rfl
  | cons x xs ih =>
    cases n with
    | zero => exact h x (by simp)
    | succ m => exact ih (fun y hy => h y (by simp [hy])) m

lemma clTauP_zero (dt : ℝ) (s : CLState) (h : ∀ c ∈ s.pids, zeroGains c) :
    clTauP dt s = fun _ => 0 := by
  funext i
  exact getD_eq_zero_of_all
    ((updatePidsP_zero dt s.q jointIdx s.pids h).2) i.val

lemma clStepP_preserves_zeroGains (robot : RigidBodyModel) (dt : ℝ)
    (s : CLState) (h : ∀ c ∈ s.pids, zeroGains c) :
    ∀ c ∈ (clStepP robot dt s).pids, zeroGains c :=
  (updatePidsP_zero dt s.q jointIdx s.pids h).1

lemma run_pid_q_get? (robot : RigidBodyModel) (setpoints : List ℝ)
    (pid_values : List PIDValue) (h1 : setpoints.length = 6)
    (h2 : setpoints.length ≤ pid_values.length) (k : ℕ) (hk : k < 1000) :
    ∃ q u, run_pid_controller robot setpoints pid_values =
      some (tStepsCL, q, u) ∧ q.length = 1000 ∧
      q.get? k = some (fun i => radToDeg ((((clStepP robot dtCL)^[k+1])
        (clInit (buildPidsP setpoints pid_values))).q i)) := by
  refine ⟨_, _, run_pid_controller_eq robot setpoints pid_values h1 h2,
    ?_, ?_⟩
  · rw [clIter_q_values_length]
    rfl
  · exact clIter_q_values_get? robot dtCL _ 1000 k rfl hk

/-- C9: the closed-loop simulator records post-update state: the sample
recorded at step `k` is the state after `k+1` Euler updates, so the first
recorded position already reflects one integration step and the initial
rest configuration need not appear in the output. -/
theorem run_pid_records_post_update (robot : RigidBodyModel)
    (setpoints : List ℝ) (pid_values : List PIDValue)
    (h1 : setpoints.length = 6) (h2 : setpoints.length ≤ pid_values.length)
    (k : ℕ) (hk : k < 1000) :
    ∃ q u, run_pid_controller robot setpoints pid_values =
      some (tStepsCL, q, u) ∧ q.length = 1000 ∧
      q.get? k = some (fun i => radToDeg ((((clStepP robot dtCL)^[k+1])
        (clInit (buildPidsP setpoints pid_values))).q i)) :=
  run_pid_q_get? robot setpoints pid_values h1 h2 k hk

/-- Six zero setpoints (rest targets). -/
def spZero : List ℝ := List.replicate 6 0

/-- Six all-zero gain triples. -/
def pvZero : List PIDValue := List.replicate 6 ⟨0, 0, 0⟩

theorem run_pid_records_post_update_witness :
    spZero.length = 6 ∧ spZero.length ≤ pvZero.length ∧ (0 : ℕ) < 1000 ∧
    ∃ q u, run_pid_controller trivModel spZero pvZero =
      some (tStepsCL, q, u) ∧ q.length = 1000 ∧
      q.get? 0 = some (fun i => radToDeg ((((clStepP trivModel dtCL)^[0+1])
        (clInit (buildPidsP spZero pvZero))).q i)) := by
  refine ⟨by simp [spZero], by simp [spZero, pvZero], by norm_num, ?_⟩
  exact run_pid_records_post_update trivModel spZero pvZero
    (by simp [spZero]) (by simp [spZero, pvZero]) 0 (by norm_num)

lemma getD_replicate_self {β : Type} (x : β) (n i : ℕ) :
    (List.replicate n x).getD i x = x := by
  rcases lt_or_le i n with h | h
  · rw [List.getD_eq_get?,
      List.get?_eq_get (by simpa using h : i < (List.replicate n x).length)]
    simp [List.get_replicate]
  · rw [List.getD_eq_get?,
      List.get?_eq_none.mpr (by simpa using h)]
    rfl

lemma buildPidsP_zero_gains (sp : List ℝ) :
    ∀ c ∈ buildPidsP sp pvZero, zeroGains c := by
  intro c hc
  rw [buildPidsP, List.mem_map] at hc
  obtain ⟨i, -, rfl⟩ := hc
  have hpv : pvZero.getD i default = ⟨0, 0, 0⟩ :=
    getD_replicate_self (⟨0, 0, 0⟩ : PIDValue) 6 i
  rw [hpv]
  exact ⟨rfl, rfl, rfl⟩

lemma radToDeg_zero : radToDeg 0 = 0 := by
  simp [radToDeg]

lemma clStepP_zero_state (robot : RigidBodyModel) (dt : ℝ) (s : CLState)
    (hg : ∀ c ∈ s.pids, zeroGains c) (hq : s.q = 0) (hqd : s.qd = 0)
    (hG : ∀ x, robot.gravload x = 0) :
    (clStepP robot dt s).q = 0 ∧ (clStepP robot dt s).qd = 0 := by
  have htau : clTauP dt s = fun _ => 0 := clTauP_zero dt s hg
  have hqdd : (robot.inertia s.q)⁻¹ *ᵥ
      (clTauP dt s - robot.coriolis s.q s.qd *ᵥ s.qd -
        robot.gravload s.q) = (0 : Vec6) := by
    rw [htau, hqd, hG s.q]
    rw [show (fun _ => (0 : ℝ)) = (0 : Vec6) from rfl]
    rw [Matrix.mulVec_zero, sub_zero, sub_zero, Matrix.mulVec_zero]
  have hstq : (clStepP robot dt s).q = fun i => s.q i +
      (s.qd i + ((robot.inertia s.q)⁻¹ *ᵥ
        (clTauP dt s - robot.coriolis s.q s.qd *ᵥ s.qd -
          robot.gravload s.q)) i * dt) * dt := rfl
  have hstqd : (clStepP robot dt s).qd = fun i => s.qd i +
      ((robot.inertia s.q)⁻¹ *ᵥ
        (clTauP dt s - robot.coriolis s.q s.qd *ᵥ s.qd -
          robot.gravload s.q)) i * dt := rfl
  constructor
  · rw [hstq, hqdd, hq, hqd]
    funext i
    simp
  · rw [hstqd, hqdd, hqd]
    funext i
    simp

/-- C1 (amended): with zero setpoints and all-zero gains the recorded
torque series is identically zero at every one of the 1000 steps; the
recorded position series stays at the rest configuration provided the
model's gravity load vanishes — with the feed-forward line commented out,
a nonzero gravity load accelerates the arm away from rest. -/
theorem run_pid_zero_gains (robot : RigidBodyModel) :
    ∃ q u, run_pid_controller robot spZero pvZero =
      some (tStepsCL, q, u) ∧ q.length = 1000 ∧ u.length = 1000 ∧
      (∀ v ∈ u, v = fun _ => 0) ∧
      ((∀ x, robot.gravload x = 0) → ∀ v ∈ q, v = fun _ => 0) := by
  have hzg : ∀ c ∈ buildPidsP spZero pvZero, zeroGains c :=
    buildPidsP_zero_gains spZero
  have hginv : ∀ n, ∀ c ∈ (((clStepP robot dtCL)^[n])
      (clInit (buildPidsP spZero pvZero))).pids, zeroGains c := by
    intro n
    induction n with
    | zero => exact hzg
    | succ m ih =>
      rw [Function.iterate_succ_apply']
      exact clStepP_preserves_zeroGains robot dtCL _ ih
  refine ⟨_, _, run_pid_controller_eq robot spZero pvZero (by simp [spZero])
    (by simp [spZero, pvZero]), ?_, ?_, ?_, ?_⟩
  · rw [clIter_q_values_length]
    rfl
  · rw [clIter_u_values_length]
    rfl
  · intro v hv
    obtain ⟨j, -, rfl⟩ := clIter_u_values_mem robot dtCL _ 1000 rfl v hv
    exact clTauP_zero dtCL _ (hginv j)
  · intro hG
    have hstate : ∀ n, (((clStepP robot dtCL)^[n])
        (clInit (buildPidsP spZero pvZero))).q = 0 ∧
        (((clStepP robot dtCL)^[n])
          (clInit (buildPidsP spZero pvZero))).qd = 0 := by
      intro n
      induction n with
      | zero => exact ⟨rfl, rfl⟩
      | succ m ih =>
        rw [Function.iterate_succ_apply']
        exact clStepP_zero_state robot dtCL _ (hginv m) ih.1 ih.2 hG
    intro v hv
    obtain ⟨j, -, rfl⟩ := clIter_q_values_mem robot dtCL _ 1000 rfl v hv
    rw [(hstate (j+1)).1]
    funext i
    simp [radToDeg_zero]

theorem run_pid_zero_gains_witness :
    ∃ q u, run_pid_controller trivModel spZero pvZero =
      some (tStepsCL, q, u) ∧ q.length = 1000 ∧ u.length = 1000 ∧
      (∀ v ∈ u, v = fun _ => 0) ∧ (∀ v ∈ q, v = fun _ => 0) := by
  obtain ⟨q, u, hru, hlq, hlu, hu, hq⟩ := run_pid_zero_gains trivModel
  exact ⟨q, u, hru, hlq, hlu, hu, hq (fun x => rfl)⟩

lemma dtQ_val : dtQ = 10/999 := by
  unfold dtQ tStepsCL
  rw [List.getD_eq_get?, List.getD_eq_get?,
    linspace_get? 0 10 1000 1 (by norm_num) (by norm_num),
    linspace_get? 0 10 1000 0 (by norm_num) (by norm_num),
    Option.getD_some, Option.getD_some]
  push_cast
  norm_num

lemma dtCL_ne_zero : dtCL ≠ 0 := by
  unfold dtCL
  rw [dtQ_val]
  norm_num

/-- A synthetic model with identity inertia, no Coriolis term and a
constant nonzero gravity load on every joint. -/
noncomputable def gravModel : RigidBodyModel :=
  { accel := fun _ _ _ => fun _ => 0
    inertia := fun _ => 1
    coriolis := fun _ _ => 0
    gravload := fun _ => fun _ => 1
    rne := fun _ _ _ => [] }

lemma gravModel_inertia (x : Vec6) : gravModel.inertia x = 1 := rfl

lemma gravModel_coriolis (x y : Vec6) : gravModel.coriolis x y = 0 := rfl

lemma gravModel_gravload (x : Vec6) : gravModel.gravload x = fun _ => 1 :=
  rfl

lemma clStepP_gravModel_q (s : CLState) (hg : ∀ c ∈ s.pids, zeroGains c)
    (hq : s.q = 0) (hqd : s.qd = 0) (i : Fin 6) :
    (clStepP gravModel dtCL s).q i = -(dtCL * dtCL) := by
  have htau : clTauP dtCL s = fun _ => 0 := clTauP_zero dtCL s hg
  have hqdd : (gravModel.inertia s.q)⁻¹ *ᵥ
      (clTauP dtCL s - gravModel.coriolis s.q s.qd *ᵥ s.qd -
        gravModel.gravload s.q) = fun _ => (-1 : ℝ) := by
    rw [htau, hqd, gravModel_inertia, gravModel_coriolis,
      gravModel_gravload, inv_one, Matrix.mulVec_zero, Matrix.one_mulVec]
    funext j
    simp
  have hstq : (clStepP gravModel dtCL s).q = fun j => s.q j +
      (s.qd j + ((gravModel.inertia s.q)⁻¹ *ᵥ
        (clTauP dtCL s - gravModel.coriolis s.q s.qd *ᵥ s.qd -
          gravModel.gravload s.q)) j * dtCL) * dtCL := rfl
  rw [hstq, hqdd, hq, hqd]
  show (0 : Vec6) i + ((0 : Vec6) i + (-1) * dtCL) * dtCL = -(dtCL * dtCL)
  simp only [Pi.zero_apply]
  ring

/-- C1 counterexample: on a model with identity inertia and a constant
unit gravity load, the run with zero setpoints and all-zero gains records
a nonzero position already at step 0 — with zero torque applied, gravity
pulls the arm away from rest, so the position series does not stay at the
rest configuration. -/
theorem run_pid_gravity_moves :
    (((run_pid_controller gravModel spZero pvZero).getD
        (tStepsCL, [], [])).2.1.getD 0 0) 0 ≠ 0 := by
  obtain ⟨q, u, hrun, -, hget⟩ := run_pid_q_get? gravModel spZero pvZero
    (by simp [spZero]) (by simp [spZero, pvZero]) 0 (by norm_num)
  rw [hrun, Option.getD_some]
  show (q.getD 0 0) 0 ≠ 0
  rw [List.getD_eq_get?, hget, Option.getD_some]
  show radToDeg ((((clStepP gravModel dtCL)^[0+1])
    (clInit (buildPidsP spZero pvZero))).q 0) ≠ 0
  rw [show (0:ℕ)+1 = 1 from rfl, Function.iterate_one]
  rw [clStepP_gravModel_q (clInit (buildPidsP spZero pvZero))
    (buildPidsP_zero_gains spZero) rfl rfl 0]
  unfold radToDeg
  apply mul_ne_zero
  · exact neg_ne_zero.mpr (mul_ne_zero dtCL_ne_zero dtCL_ne_zero)
  · exact div_ne_zero (by norm_num) Real.pi_ne_zero

lemma updatePids_none (dt : ℝ) (q : Vec6) (is : List (Fin 6))
    (pids : List (PIDController ℝ)) (h : ∃ i ∈ is, pids.length ≤ i.val) :
    updatePids dt q pids is = none := by
  induction is generalizing pids with
  | nil =>
    obtain ⟨i, hi, -⟩ := h
    cases hi
  | cons j rest ih =>
    rcases le_or_lt pids.length j.val with hj | hj
    · show (pids.get? j.val).bind _ = none
      rw [List.get?_eq_none.mpr hj]
      rfl
    · obtain ⟨i, hi, hlen⟩ := h
      rcases List.mem_cons.mp hi with rfl | hmem
      · omega
      · show (pids.get? j.val).bind _ = none
        rw [get?_eq_some_getD pids (PIDController.make 0 0 0 0) j.val hj]
        show (updatePids dt q (pids.set j.val _) rest).bind _ = none
        rw [ih _ ⟨i, hmem, by rw [List.length_set]; exact hlen⟩]
        rfl

lemma clLoop_succ (robot : RigidBodyModel) (dt : ℝ) (n : ℕ) (s : CLState) :
    clLoop robot dt (n+1) s = (clStep robot dt s).bind
      (fun s2 => clLoop robot dt n s2) := rfl

/-- Five setpoints (one joint short). -/
def spFive : List ℝ := List.replicate 5 0

/-- Five gain triples (one joint short). -/
def pvFive : List PIDValue := List.replicate 5 ⟨1, 0, 0⟩

/-- C10: the closed-loop simulator performs no input-length validation.
With only 5 setpoints and 5 gain triples, the construction phase happily
builds 5 controllers (no `DimensionMismatch`), and the run then fails
inside the first simulation step when the joint loop indexes `pids[5]`
out of range. -/
theorem run_pid_no_length_validation (robot : RigidBodyModel) :
    buildPids spFive pvFive = some (buildPidsP spFive pvFive) ∧
    (buildPidsP spFive pvFive).length = 5 ∧
    clStep robot dtCL (clInit (buildPidsP spFive pvFive)) = none ∧
    run_pid_controller robot spFive pvFive = none := by
  have hb := buildPids_eq spFive pvFive (by simp [spFive, pvFive])
  have hlen : (buildPidsP spFive pvFive).length = 5 := by
    rw [buildPidsP_length]
    simp [spFive]
  have hnone : updatePids dtCL (clInit (buildPidsP spFive pvFive)).q
      (clInit (buildPidsP spFive pvFive)).pids jointIdx = none := by
    apply updatePids_none
    refine ⟨5, by decide, ?_⟩
    show (buildPidsP spFive pvFive).length ≤ (5 : Fin 6).val
    rw [hlen]
    decide
  have hstep : clStep robot dtCL (clInit (buildPidsP spFive pvFive)) =
      none := by
    unfold clStep
    rw [hnone]
    rfl
  refine ⟨hb, hlen, hstep, ?_⟩
  unfold run_pid_controller
  rw [hb, tStepsCL_length]
  simp only [Option.bind_eq_bind, Option.some_bind]
  rw [show (1000 : ℕ) = 999 + 1 from rfl, clLoop_succ, hstep]
  rfl

theorem run_pid_no_length_validation_witness :
    buildPids spFive pvFive = some (buildPidsP spFive pvFive) ∧
    (buildPidsP spFive pvFive).length = 5 ∧
    clStep trivModel dtCL (clInit (buildPidsP spFive pvFive)) = none ∧
    run_pid_controller trivModel spFive pvFive = none :=
  run_pid_no_length_validation trivModel
